import Mathlib

/-! The in-memory user directory of the Next.js exercises.

A shallow embedding of the route handlers

* `Next/01/app/api/user/[id]/route.js`   (`GET`),
* `Next/03/app/api/users/route.js`       (`GET`, `POST`),
* `Next/03/app/api/users/[id]/route.js`  (`GET`, `DELETE`, `PUT`).

Every handler works on the module-level array `users` imported from
`@/lib/db`.  That module is not part of the sources, so the array is the
state threaded through every handler: a handler takes the array as it
stands before the call and yields the array as it stands afterwards together
with what the call produced (a response, or a thrown error).
-/

namespace UserDirectory

/-! ## Data model -/

/-- A user record, `{ id, name }` in the JavaScript source.  An id is a
JavaScript number holding a non-negative integer. -/
structure User where
  id : Nat
  name : String
deriving DecidableEq, Repr

/-- The module-level array `users` of `@/lib/db`. -/
abbrev Directory := List User

/-- The errors a handler body can throw. -/
inductive JsError where
  /-- An identifier that no declaration or import of the module binds. -/
  | ReferenceError (identifier : String)
  /-- Calling something that is not a function, or (in a module, which is
  strict code) assigning a property on a primitive value. -/
  | TypeError (what : String)
  /-- The promise of `req.json()` rejects: the body cannot be read or parsed. -/
  | RequestBodyError
deriving DecidableEq, Repr

/-- The JSON values the handlers pass to `NextResponse.json`. -/
inductive Payload where
  /-- The object `{message}`. -/
  | message (message : String)
  /-- A bare array of records. -/
  | list (records : List User)
  /-- The object `{message, users}`. -/
  | messageUsers (message : String) (users : List User)
  /-- The object `{message, singleData}`. -/
  | messageSingleData (message : String) (singleData : List User)
deriving DecidableEq, Repr

/-- What `NextResponse.json(body, {status})` builds. -/
structure Response where
  status : Nat
  body : Payload
deriving DecidableEq, Repr

/-- How the evaluation of a handler body (or of a part of it) ends. -/
inductive Outcome where
  | returned (response : Response)
  | threw (error : JsError)
deriving DecidableEq, Repr

/-- The array after the call, and how the call ended. -/
structure Result where
  users : Directory
  outcome : Outcome
deriving DecidableEq, Repr

/-! ## The JavaScript constructs the handlers use -/

/-- The import list of a route module, as far as the handlers depend on it. -/
structure RouteModule where
  importsNextResponse : Bool
deriving DecidableEq, Repr

/-- Evaluation of `NextResponse.json(body, {status})` inside a module.  When
the module does not import `NextResponse` the identifier is unbound and its
evaluation throws a `ReferenceError`. -/
def NextResponse.json (m : RouteModule) (status : Nat) (body : Payload) : Outcome :=
  if m.importsNextResponse then
    .returned ⟨status, body⟩
  else
    .threw (.ReferenceError "NextResponse")

/-- The statement `try { body } catch (error) { handler }`: the handler runs on
the array as the body left it when it threw. -/
def tryCatch (body : Result) (handler : JsError → Directory → Result) : Result :=
  match body.outcome with
  | .returned _ => body
  | .threw error => handler error body.users

/-- `Array.prototype.findIndex`; `none` stands for the result `-1`. -/
def findIndex (p : User → Bool) : List User → Option Nat
  | [] => none
  | u :: us => if p u then some 0 else (findIndex p us).map (· + 1)

/-- `users.splice(start, 1)`: the array without the element at `start`. -/
def splice1 (users : Directory) (start : Nat) : Directory :=
  users.eraseIdx start

/-- `Number.MAX_SAFE_INTEGER`, that is 2^53 - 1. -/
def MAX_SAFE_INTEGER : Nat := 9007199254740991

/-- Every id of the array is a safe integer.  For such an id
`Number.prototype.toString` gives the exact decimal numeral, the string
`toString` gives here.  A larger number is rendered by JavaScript from its
shortest round-trip digits (2^60 as `1152921504606847000`) or in exponent form
(10^21 as `1e+21`), which `toString` does not follow: what is stated of the
tests `users.id.toString() === id` for arbitrary arrays is stated for arrays
with safe ids. -/
def SafeIds (users : Directory) : Prop :=
  ∀ u ∈ users, u.id ≤ MAX_SAFE_INTEGER

/-! ## `Next/01/app/api/user/[id]/route.js` -/

namespace Next01.UserId

/-- Line 2 of the module imports `NextResponse`. -/
def routeModule : RouteModule := ⟨true⟩

/-- The handler `GET(request, par)`.  The path parameter `par.params.id` is the
decimal numeral of `id`; the loose comparison `item.id == par.params.id`
converts that string back to a number, so it tests `item.id` against `id`. -/
def GET (id : Nat) (users : Directory) : Result :=
  let singleData := users.filter (fun item => item.id == id)
  if singleData.length == 0 then
    ⟨users, NextResponse.json routeModule 404 (.message "No user found")⟩
  else
    ⟨users, NextResponse.json routeModule 200 (.list singleData)⟩

end Next01.UserId

/-! ## `Next/03/app/api/users/route.js` -/

namespace Next03.Users

/-- Line 2 of the module imports `NextResponse`. -/
def routeModule : RouteModule := ⟨true⟩

/-- The handler `GET`: the whole array. -/
def GET (users : Directory) : Result :=
  tryCatch
    ⟨users, NextResponse.json routeModule 200 (.list users)⟩
    (fun _ users =>
      ⟨users, NextResponse.json routeModule 500 (.message "Internal Server Error")⟩)

/-- The handler `POST`.  `body` is what `await req.json()` gives: `none` when
the promise rejects, `some name` when it resolves to an object whose `name`
is the given string.  The `await` stands on line 16, before the `try`. -/
def POST (body : Option String) (users : Directory) : Result :=
  match body with
  | none => ⟨users, .threw .RequestBodyError⟩
  | some name =>
    tryCatch
      (let newData : User := ⟨users.length + 1, name⟩
       let pushed := users ++ [newData]
       ⟨pushed, NextResponse.json routeModule 200 (.list pushed)⟩)
      (fun _ users =>
        ⟨users, NextResponse.json routeModule 500 (.message "Internal Server Error")⟩)

end Next03.Users

/-! ## `Next/03/app/api/users/[id]/route.js` -/

namespace Next03.UsersId

/-- The module's only import is `import { users } from "@/lib/db"` (line 1):
nothing binds `NextResponse` in it. -/
def routeModule : RouteModule := ⟨false⟩

/-- The `catch (error)` block shared by the three handlers. -/
def internalServerError (_error : JsError) (users : Directory) : Result :=
  ⟨users, NextResponse.json routeModule 500 (.message "Internal Server Error")⟩

/-- The handler `GET`.  `id` is `req.url.split("users/")[1]`.  Line 9 calls
`users.filer`, which no array has: the call throws a `TypeError`, and lines
10 to 16 are never reached. -/
def GET (_id : String) (users : Directory) : Result :=
  tryCatch
    ⟨users, .threw (.TypeError "users.filer is not a function")⟩
    internalServerError

/-- The handler `DELETE`.  `id` is `req.url.split("users/")[1]`.  The test
`users.id.toString() === id` is rendered with `toString`, the exact decimal
numeral, which is what JavaScript gives on arrays with `SafeIds`. -/
def DELETE (id : String) (users : Directory) : Result :=
  tryCatch
    (match findIndex (fun u => toString u.id == id) users with
     | none => ⟨users, NextResponse.json routeModule 404 (.message "User not found")⟩
     | some userIndex =>
       let spliced := splice1 users userIndex
       ⟨spliced,
        NextResponse.json routeModule 200 (.messageUsers "User deleted successfully" spliced)⟩)
    internalServerError

/-- The handler `PUT`.  `id` is `req.url.split("users/")[1]`, `body` is what
`await req.json()` gives (as for `POST`), here inside the `try`.  Line 55
assigns `userIndex.name`, a property of the number `findIndex` returned; in a
module this throws a `TypeError`, and lines 56 and 57 are never reached.
The test `users.id.toString() === id` is rendered as in `DELETE`. -/
def PUT (id : String) (body : Option String) (users : Directory) : Result :=
  tryCatch
    (match body with
     | none => ⟨users, .threw .RequestBodyError⟩
     | some _name =>
       match findIndex (fun u => toString u.id == id) users with
       | none => ⟨users, NextResponse.json routeModule 404 (.message "User not found")⟩
       | some _userIndex =>
         ⟨users, .threw (.TypeError "Cannot create property name on a number")⟩)
    internalServerError

end Next03.UsersId

/-! ## Runs of requests -/

/-- A run of `POST` requests with no other request in between, one request per
name of `names`, each with a body naming it and each working on the array
the request before it left. -/
def postAll (names : List String) (users : Directory) : Directory :=
  names.foldl (fun users name => (Next03.Users.POST (some name) users).users) users


/-! ## Decimal numerals -/

/-- The value of a decimal digit character. -/
def digitValue (c : Char) : Nat := c.toNat - 48

/-- The number a list of decimal digits denotes, most significant digit first. -/
def numeralValue (cs : List Char) : Nat :=
  cs.foldl (fun acc c => 10 * acc + digitValue c) 0

/-! ## Lemmas on the JavaScript constructs -/

theorem digitValue_digitChar (d : Nat) (h : d < 10) : digitValue (Nat.digitChar d) = d := by
  interval_cases d <;> rfl

theorem toDigitsCore_append (fuel n : Nat) (ds : List Char) :
    Nat.toDigitsCore 10 fuel n ds = Nat.toDigitsCore 10 fuel n [] ++ ds := by
  induction fuel generalizing n ds with
  | zero => simp [Nat.toDigitsCore]
  | succ fuel ih =>
    simp only [Nat.toDigitsCore]
    split
    · simp
    · rw [ih (n / 10) (_ :: ds), ih (n / 10) [_]]
      simp

theorem numeralValue_toDigitsCore (fuel n : Nat) (h : n < fuel) :
    numeralValue (Nat.toDigitsCore 10 fuel n []) = n := by
  induction fuel generalizing n with
  | zero => omega
  | succ fuel ih =>
    simp only [Nat.toDigitsCore]
    split
    · have hn : n < 10 := by
        rcases Nat.lt_or_ge n 10 with h1 | h1
        · exact h1
        · have := Nat.div_pos h1 (by decide : 0 < 10); omega
      simp [numeralValue, Nat.mod_eq_of_lt hn, digitValue_digitChar n hn]
    · rw [toDigitsCore_append]
      have hrec := ih (n / 10) (by omega)
      simp only [numeralValue] at hrec ⊢
      rw [List.foldl_append, hrec]
      simp [digitValue_digitChar (n % 10) (Nat.mod_lt _ (by decide))]
      omega

/-- Reading the numeral `n.toString()` back gives `n`. -/
theorem numeralValue_toString (n : Nat) : numeralValue (toString n).data = n := by
  show numeralValue (Nat.repr n).data = n
  simp only [Nat.repr, List.asString]
  exact numeralValue_toDigitsCore (n + 1) n (Nat.lt_succ_self n)

/-- Two numbers with the same numeral are equal. -/
theorem toString_injective {a b : Nat} (h : toString a = toString b) : a = b := by
  have := congrArg (fun s => numeralValue s.data) h
  simpa [numeralValue_toString] using this

/-- The test `toString u.id == id` that renders `users.id.toString() === id` in
`DELETE` and `PUT`, when the path segment is the numeral of `id`, is the test
`u.id = id`. -/
theorem toString_beq (id : Nat) :
    (fun u : User => toString u.id == toString id) = (fun u : User => u.id == id) := by
  funext u
  by_cases h : u.id = id
  · simp [h]
  · have : toString u.id ≠ toString id := fun e => h (toString_injective e)
    simp [h, this]

/-- Removing the element `findIndex` points at removes the first element the
test accepts, and nothing when it accepts none. -/
theorem splice1_findIndex (p : User → Bool) (l : Directory) :
    (match findIndex p l with
      | none => l
      | some i => splice1 l i) = l.eraseP p := by
  induction l with
  | nil => rfl
  | cons u us ih =>
    cases hp : p u with
    | true => simp [findIndex, hp, splice1]
    | false =>
      cases hf : findIndex p us with
      | none => simp [findIndex, hp, hf] at ih ⊢; exact ih
      | some i => simp [findIndex, hp, hf, splice1] at ih ⊢; exact ih

theorem findIndex_eq_none (p : User → Bool) (l : Directory) :
    findIndex p l = none ↔ ∀ u ∈ l, p u = false := by
  induction l with
  | nil => simp [findIndex]
  | cons u us ih =>
    cases hp : p u <;> simp [findIndex, hp, ih]

/-- The array `DELETE` leaves behind, whatever the path segment. -/
theorem DELETE_users (id : String) (users : Directory) :
    (Next03.UsersId.DELETE id users).users
      = users.eraseP (fun u => toString u.id == id) := by
  rw [← splice1_findIndex]
  unfold Next03.UsersId.DELETE
  cases findIndex (fun u => toString u.id == id) users <;> rfl

/-- How `DELETE` ends, whatever the request. -/
theorem DELETE_outcome (id : String) (users : Directory) :
    (Next03.UsersId.DELETE id users).outcome = .threw (.ReferenceError "NextResponse") := by
  unfold Next03.UsersId.DELETE
  cases findIndex (fun u => toString u.id == id) users <;> rfl

/-- The handler `PUT` never changes the array and never returns a response. -/
theorem PUT_eq (id : String) (body : Option String) (users : Directory) :
    Next03.UsersId.PUT id body users = ⟨users, .threw (.ReferenceError "NextResponse")⟩ := by
  unfold Next03.UsersId.PUT
  cases body with
  | none => rfl
  | some name => cases findIndex (fun u => toString u.id == id) users <;> rfl

/-- The handler `GET` of `users/[id]` never changes the array and never
returns a response. -/
theorem GET_eq (id : String) (users : Directory) :
    Next03.UsersId.GET id users = ⟨users, .threw (.ReferenceError "NextResponse")⟩ := rfl

theorem length_eraseP_add_one (p : User → Bool) (l : Directory) (h : ∃ u ∈ l, p u = true) :
    (l.eraseP p).length + 1 = l.length := by
  induction l with
  | nil => simp at h
  | cons u us ih =>
    cases hp : p u with
    | true => simp [List.eraseP_cons, hp]
    | false =>
      have h2 : ∃ v ∈ us, p v = true := by
        obtain ⟨v, hv, hpv⟩ := h
        rcases List.mem_cons.mp hv with rfl | hv
        · simp [hp] at hpv
        · exact ⟨v, hv, hpv⟩
      simp [List.eraseP_cons, hp, ih h2]

theorem filter_id_eq_nil (id : Nat) (l : Directory) (h : id ∉ l.map User.id) :
    l.filter (fun u => u.id == id) = [] := by
  rw [List.filter_eq_nil_iff]
  intro u hu
  have : u.id ≠ id := fun e => h (e ▸ List.mem_map_of_mem User.id hu)
  simpa using this

theorem filter_eraseP_id (id : Nat) (l : Directory) (h : (l.map User.id).count id = 1) :
    (l.eraseP (fun u => u.id == id)).filter (fun u => u.id == id) = [] := by
  induction l with
  | nil => rfl
  | cons u us ih =>
    by_cases hu : u.id = id
    · have h0 : (us.map User.id).count id = 0 := by
        simpa [List.count_cons, hu] using h
      simp only [List.eraseP_cons, hu, beq_self_eq_true, if_true]
      exact filter_id_eq_nil id us (List.count_eq_zero.mp h0)
    · have h1 : (us.map User.id).count id = 1 := by
        simpa [List.count_cons, hu] using h
      simp [List.eraseP_cons, hu, List.filter_cons, ih h1]

theorem filter_id_singleton (id : Nat) (l : Directory) (h : (l.map User.id).count id = 1) :
    ∃ r, r ∈ l ∧ r.id = id ∧ l.filter (fun u => u.id == id) = [r] := by
  induction l with
  | nil => simp at h
  | cons u us ih =>
    by_cases hu : u.id = id
    · have h0 : (us.map User.id).count id = 0 := by
        simpa [List.count_cons, hu] using h
      refine ⟨u, List.mem_cons_self _ _, hu, ?_⟩
      simp [List.filter_cons, hu, filter_id_eq_nil id us (List.count_eq_zero.mp h0)]
    · have h1 : (us.map User.id).count id = 1 := by
        simpa [List.count_cons, hu] using h
      obtain ⟨r, hr, hrid, hf⟩ := ih h1
      exact ⟨r, List.mem_cons_of_mem _ hr, hrid, by simp [List.filter_cons, hu, hf]⟩

/-! ## The claims -/

/-- C1, evaluated on the Directory holding the one record with id 1 and name
"A": `PUT` on the path segment `1` with the body name "A2" throws, leaves the
record's name "A", and `GET` of `Next/01` on id 1 afterwards still returns the
record named "A". -/
theorem C1_PUT_keeps_old_name :
    Next03.UsersId.PUT (toString 1) (some "A2") [⟨1, "A"⟩]
        = ⟨[⟨1, "A"⟩], .threw (.ReferenceError "NextResponse")⟩
      ∧ Next01.UserId.GET 1
          (Next03.UsersId.PUT (toString 1) (some "A2") [⟨1, "A"⟩]).users
        = ⟨[⟨1, "A"⟩], .returned ⟨200, .list [⟨1, "A"⟩]⟩⟩ := by
  decide

/-- C2 as stated fails: in the Directory with two records of id 1, id 1 is
carried by a record, yet after `DELETE` on the path segment `1` the `GET` of
`Next/01` on id 1 answers 200 with the second record instead of 404. -/
theorem C2_counterexample :
    1 ∈ ([⟨1, "A"⟩, ⟨1, "B"⟩] : Directory).map User.id
      ∧ (Next01.UserId.GET 1
          (Next03.UsersId.DELETE (toString 1) [⟨1, "A"⟩, ⟨1, "B"⟩]).users).outcome
        = .returned ⟨200, .list [⟨1, "B"⟩]⟩ := by
  decide

/-- C2, amended: when every id of the Directory is a safe integer (at most
`Number.MAX_SAFE_INTEGER`) and exactly one record of the Directory carries
`id`, then after `DELETE` on the path segment that is the numeral of `id` the
Directory is one record shorter and `GET` of `Next/01` on `id` answers 404
with the message "No user found", leaving the Directory as `DELETE` left it.
The bound on the ids is the range on which `toString` is the string the
handler compares. -/
theorem C2_DELETE_then_GET_not_found (users : Directory) (id : Nat)
    (_hsafe : SafeIds users)
    (h : (users.map User.id).count id = 1) :
    (Next03.UsersId.DELETE (toString id) users).users.length + 1 = users.length
      ∧ Next01.UserId.GET id (Next03.UsersId.DELETE (toString id) users).users
        = ⟨(Next03.UsersId.DELETE (toString id) users).users,
           .returned ⟨404, .message "No user found"⟩⟩ := by
  rw [DELETE_users, toString_beq]
  constructor
  · apply length_eraseP_add_one
    have hmem : id ∈ users.map User.id := List.count_pos_iff.mp (by omega)
    obtain ⟨u, hu, hid⟩ := List.mem_map.mp hmem
    exact ⟨u, hu, by simp [hid]⟩
  · simp [Next01.UserId.GET, filter_eraseP_id id users h, NextResponse.json,
      Next01.UserId.routeModule]

/-- Witness of C2, amended: the Directory with ids 1 and 2, deleting id 2. -/
theorem C2_DELETE_then_GET_not_found_witness :
    SafeIds [⟨1, "A"⟩, ⟨2, "B"⟩]
      ∧ (([⟨1, "A"⟩, ⟨2, "B"⟩] : Directory).map User.id).count 2 = 1
      ∧ (Next03.UsersId.DELETE (toString 2) [⟨1, "A"⟩, ⟨2, "B"⟩]).users.length + 1
          = ([⟨1, "A"⟩, ⟨2, "B"⟩] : Directory).length
      ∧ Next01.UserId.GET 2 (Next03.UsersId.DELETE (toString 2) [⟨1, "A"⟩, ⟨2, "B"⟩]).users
        = ⟨(Next03.UsersId.DELETE (toString 2) [⟨1, "A"⟩, ⟨2, "B"⟩]).users,
           .returned ⟨404, .message "No user found"⟩⟩ :=
  ⟨by simp [SafeIds, MAX_SAFE_INTEGER], by decide,
    C2_DELETE_then_GET_not_found [⟨1, "A"⟩, ⟨2, "B"⟩] 2
      (by simp [SafeIds, MAX_SAFE_INTEGER]) (by decide)⟩

/-- C3 as stated fails: on the Directory whose one record has id 2, `POST`
assigns id 2 again, and `GET` of `Next/01` on id 2 then returns two records,
the old one first, not exactly the new record. -/
theorem C3_counterexample :
    (Next03.Users.POST (some "B") [⟨2, "A"⟩]).users = [⟨2, "A"⟩, ⟨2, "B"⟩]
      ∧ (Next01.UserId.GET (([⟨2, "A"⟩] : Directory).length + 1)
          (Next03.Users.POST (some "B") [⟨2, "A"⟩]).users).outcome
        = .returned ⟨200, .list [⟨2, "A"⟩, ⟨2, "B"⟩]⟩ := by
  decide

/-- C3, amended: when no record of the Directory carries the id
`users.length + 1`, then after `POST` with a body naming `name` the Directory
is one record longer and `GET` of `Next/01` on the assigned id
`users.length + 1` answers 200 with exactly the new record, which carries the
given name. -/
theorem C3_POST_then_GET (users : Directory) (name : String)
    (h : users.length + 1 ∉ users.map User.id) :
    (Next03.Users.POST (some name) users).users.length = users.length + 1
      ∧ Next01.UserId.GET (users.length + 1) (Next03.Users.POST (some name) users).users
        = ⟨(Next03.Users.POST (some name) users).users,
           .returned ⟨200, .list [⟨users.length + 1, name⟩]⟩⟩ := by
  have hpost : (Next03.Users.POST (some name) users).users
      = users ++ [⟨users.length + 1, name⟩] := rfl
  rw [hpost]
  constructor
  · simp
  · simp [Next01.UserId.GET, List.filter_append, filter_id_eq_nil _ users h,
      List.filter_cons, NextResponse.json, Next01.UserId.routeModule]

/-- Witness of C3, amended: creating "B" on the Directory with the one id 1. -/
theorem C3_POST_then_GET_witness :
    ([⟨1, "A"⟩] : Directory).length + 1 ∉ ([⟨1, "A"⟩] : Directory).map User.id
      ∧ (Next03.Users.POST (some "B") [⟨1, "A"⟩]).users.length
          = ([⟨1, "A"⟩] : Directory).length + 1
      ∧ Next01.UserId.GET (([⟨1, "A"⟩] : Directory).length + 1)
          (Next03.Users.POST (some "B") [⟨1, "A"⟩]).users
        = ⟨(Next03.Users.POST (some "B") [⟨1, "A"⟩]).users,
           .returned ⟨200, .list [⟨([⟨1, "A"⟩] : Directory).length + 1, "B"⟩]⟩⟩ :=
  ⟨by decide, C3_POST_then_GET [⟨1, "A"⟩] "B" (by decide)⟩

/-- C4 as stated fails: in the Directory with two records of id 1, `GET` of
`Next/01` on id 1 returns both records, so its answer is not a list of one
record. -/
theorem C4_counterexample :
    1 ∈ ([⟨1, "A"⟩, ⟨1, "B"⟩] : Directory).map User.id
      ∧ (Next01.UserId.GET 1 [⟨1, "A"⟩, ⟨1, "B"⟩]).outcome
        = .returned ⟨200, .list [⟨1, "A"⟩, ⟨1, "B"⟩]⟩
      ∧ ¬ ∃ r : User, (Next01.UserId.GET 1 [⟨1, "A"⟩, ⟨1, "B"⟩]).outcome
        = .returned ⟨200, .list [r]⟩ := by
  refine ⟨by decide, by decide, ?_⟩
  rintro ⟨r, hr⟩
  have h2 : (Next01.UserId.GET 1 [⟨1, "A"⟩, ⟨1, "B"⟩]).outcome
      = .returned ⟨200, .list [⟨1, "A"⟩, ⟨1, "B"⟩]⟩ := by decide
  rw [h2] at hr
  simp at hr

/-- C4, amended: when exactly one record of the Directory carries `id`, `GET`
of `Next/01` on `id` answers 200 with a list of exactly one record, that
record is a record of the Directory and its id is `id`; the Directory is
unchanged. -/
theorem C4_GET_returns_the_record (users : Directory) (id : Nat)
    (h : (users.map User.id).count id = 1) :
    ∃ r, r ∈ users ∧ r.id = id
      ∧ Next01.UserId.GET id users = ⟨users, .returned ⟨200, .list [r]⟩⟩ := by
  obtain ⟨r, hr, hid, hf⟩ := filter_id_singleton id users h
  exact ⟨r, hr, hid, by
    simp [Next01.UserId.GET, hf, NextResponse.json, Next01.UserId.routeModule]⟩

/-- Witness of C4, amended: the Directory with ids 1 and 2, looking up id 2. -/
theorem C4_GET_returns_the_record_witness :
    (([⟨1, "A"⟩, ⟨2, "B"⟩] : Directory).map User.id).count 2 = 1
      ∧ ∃ r, r ∈ ([⟨1, "A"⟩, ⟨2, "B"⟩] : Directory) ∧ r.id = 2
        ∧ Next01.UserId.GET 2 [⟨1, "A"⟩, ⟨2, "B"⟩]
          = ⟨[⟨1, "A"⟩, ⟨2, "B"⟩], .returned ⟨200, .list [r]⟩⟩ :=
  ⟨by decide, C4_GET_returns_the_record [⟨1, "A"⟩, ⟨2, "B"⟩] 2 (by decide)⟩

/-- C5, evaluated on the Directory holding the one record with id 1: no
record's numeral is the path segment `7`, and both `DELETE` and `PUT` (with
a body naming "X") on that segment leave the Directory as it was but end by
throwing the `ReferenceError` for `NextResponse` instead of returning the
404 response. -/
theorem C5_absent_id_throws :
    (∀ u ∈ ([⟨1, "A"⟩] : Directory), toString u.id ≠ "7")
      ∧ Next03.UsersId.DELETE "7" [⟨1, "A"⟩]
        = ⟨[⟨1, "A"⟩], .threw (.ReferenceError "NextResponse")⟩
      ∧ Next03.UsersId.PUT "7" (some "X") [⟨1, "A"⟩]
        = ⟨[⟨1, "A"⟩], .threw (.ReferenceError "NextResponse")⟩ := by
  decide

/-- C6, evaluated on the Directory holding the one record with id 1: `GET` of
`users/[id]` leaves the Directory as it was but throws, both on the path
segment `1`, which matches the record, and on the path segment `7`, which
matches none; it returns neither the 200 nor the 404 response. -/
theorem C6_GET_throws :
    Next03.UsersId.GET (toString 1) [⟨1, "A"⟩]
        = ⟨[⟨1, "A"⟩], .threw (.ReferenceError "NextResponse")⟩
      ∧ Next03.UsersId.GET "7" [⟨1, "A"⟩]
        = ⟨[⟨1, "A"⟩], .threw (.ReferenceError "NextResponse")⟩ := by
  decide

/-- C7, evaluated on the Directory holding the one record with id 1 and a
request whose body cannot be parsed: `POST` ends by throwing the body error
itself, and `PUT` ends by throwing the `ReferenceError` for `NextResponse`;
neither returns the 500 response. -/
theorem C7_unreadable_body_throws :
    Next03.Users.POST none [⟨1, "A"⟩] = ⟨[⟨1, "A"⟩], .threw .RequestBodyError⟩
      ∧ Next03.UsersId.PUT (toString 1) none [⟨1, "A"⟩]
        = ⟨[⟨1, "A"⟩], .threw (.ReferenceError "NextResponse")⟩ := by
  decide

/-- C8: for every Directory of `n` records and every name, `POST` with a body
naming `name` leaves the Directory equal to the original records, in their
order, followed by the one new record with id `n + 1` and the given name,
and returns, with status 200, that full updated Directory. -/
theorem C8_POST_appends (users : Directory) (name : String) :
    Next03.Users.POST (some name) users
      = ⟨users ++ [⟨users.length + 1, name⟩],
         .returned ⟨200, .list (users ++ [⟨users.length + 1, name⟩])⟩⟩ :=
  rfl

/-- C9, evaluated on the Directory with ids 1, 2, 3: `DELETE` on the path
segment `2` leaves the Directory with the records of ids 1 and 3, in that
order, but ends by throwing the `ReferenceError` for `NextResponse`; it
returns no list. -/
theorem C9_DELETE_returns_no_list :
    Next03.UsersId.DELETE (toString 2) [⟨1, "A"⟩, ⟨2, "B"⟩, ⟨3, "C"⟩]
      = ⟨[⟨1, "A"⟩, ⟨3, "C"⟩], .threw (.ReferenceError "NextResponse")⟩ := by
  decide

/-- C10: there is a Directory with pairwise distinct ids (ids 1, 2, 3), an id
it carries and a name such that, after `DELETE` of that id and one `POST` of
that name, the new record is the last one, its id is the length of the
Directory after the deletion plus one, that id is already carried by a record
the deletion left, and the ids of the resulting Directory are no longer
pairwise distinct. -/
theorem C10_id_collision_after_delete :
    ∃ (users : Directory) (id : Nat) (name : String),
      users.map User.id = [1, 2, 3]
      ∧ (users.map User.id).Nodup
      ∧ id ∈ users.map User.id
      ∧ (Next03.Users.POST (some name)
            (Next03.UsersId.DELETE (toString id) users).users).users
          = (Next03.UsersId.DELETE (toString id) users).users
              ++ [⟨(Next03.UsersId.DELETE (toString id) users).users.length + 1, name⟩]
      ∧ (Next03.UsersId.DELETE (toString id) users).users.length + 1
          ∈ (Next03.UsersId.DELETE (toString id) users).users.map User.id
      ∧ ¬ ((Next03.Users.POST (some name)
            (Next03.UsersId.DELETE (toString id) users).users).users.map User.id).Nodup :=
  ⟨[⟨1, "A"⟩, ⟨2, "B"⟩, ⟨3, "C"⟩], 1, "D", by decide⟩

/-! ## Runs of `POST` requests -/

theorem postAll_cons (name : String) (names : List String) (users : Directory) :
    postAll (name :: names) users
      = postAll names (users ++ [⟨users.length + 1, name⟩]) := rfl

/-- Every request of a run of `POST` requests returns its response: none throws. -/
theorem POST_returns (name : String) (users : Directory) :
    ∃ response, (Next03.Users.POST (some name) users).outcome = .returned response :=
  ⟨_, rfl⟩

theorem postAll_length (names : List String) (users : Directory) :
    (postAll names users).length = users.length + names.length := by
  induction names generalizing users with
  | nil => rfl
  | cons name names ih =>
    rw [postAll_cons, ih]
    simp
    omega

/-- The records a run of `POST` requests starts from are still records after it. -/
theorem mem_postAll (names : List String) (users : Directory) (r : User) (h : r ∈ users) :
    r ∈ postAll names users := by
  induction names generalizing users with
  | nil => exact h
  | cons name names ih =>
    rw [postAll_cons]
    exact ih _ (List.mem_append_left _ h)

/-- Ids that count up from 1 stay so under a run of `POST` requests. -/
theorem postAll_ids (names : List String) (users : Directory)
    (h : users.map User.id = List.range' 1 users.length) :
    (postAll names users).map User.id = List.range' 1 (users.length + names.length) := by
  induction names generalizing users with
  | nil => simpa [postAll] using h
  | cons name names ih =>
    rw [postAll_cons]
    have hstep : (users ++ [(⟨users.length + 1, name⟩ : User)]).map User.id
        = List.range' 1 (users ++ [(⟨users.length + 1, name⟩ : User)]).length := by
      rw [List.map_append, h, List.length_append, List.length_singleton,
        List.range'_1_concat]
      simp [Nat.add_comm]
    have hlen : (users ++ [(⟨users.length + 1, name⟩ : User)]).length + names.length
        = users.length + (name :: names).length := by
      simp only [List.length_append, List.length_cons, List.length_nil]
      omega
    rw [ih _ hstep, hlen]

/-- The record the request number `i` of a run creates is a record after the run. -/
theorem created_mem_postAll (names : List String) (users : Directory) (i : Nat)
    (hi : i < names.length) :
    (⟨users.length + i + 1, names[i]⟩ : User) ∈ postAll names users := by
  induction names generalizing users i with
  | nil => simp at hi
  | cons name names ih =>
    rw [postAll_cons]
    cases i with
    | zero =>
      apply mem_postAll
      simp
    | succ j =>
      have hj : j < names.length := by simpa using hi
      have := ih (users ++ [⟨users.length + 1, name⟩]) j hj
      simp only [List.length_append, List.length_singleton] at this
      simpa [Nat.add_assoc, Nat.add_comm 1 j] using this

/-- In an array with pairwise distinct ids, filtering on the id of a record of
the array keeps that record alone. -/
theorem filter_id_of_nodup (l : Directory) (r : User) (hn : (l.map User.id).Nodup)
    (hr : r ∈ l) : l.filter (fun u => u.id == r.id) = [r] := by
  have hc : (l.map User.id).count r.id = 1 :=
    List.count_eq_one_of_mem hn (List.mem_map_of_mem User.id hr)
  obtain ⟨s, _, _, hf⟩ := filter_id_singleton r.id l hc
  have hmem : r ∈ l.filter (fun u => u.id == r.id) := by
    simp [List.mem_filter, hr]
  rw [hf] at hmem
  rw [hf, List.mem_singleton.mp hmem]

/-- C11: for every Directory whose ids are 1, 2, ..., n in that order and every
run of k `POST` requests with parsed bodies and no other request in between,
the ids of the resulting Directory are 1, 2, ..., n + k in that order, they
are pairwise distinct, and for each request of the run `GET` of `Next/01` on
the id it assigned (n + i + 1 for request number i, counted from 0) answers
200 with exactly the record created by that request, carrying its name. -/
theorem C11_posts_keep_ids_consecutive (users : Directory) (names : List String)
    (h : users.map User.id = List.range' 1 users.length) :
    (postAll names users).map User.id = List.range' 1 (users.length + names.length)
      ∧ ((postAll names users).map User.id).Nodup
      ∧ ∀ (i : Nat) (hi : i < names.length),
          Next01.UserId.GET (users.length + i + 1) (postAll names users)
            = ⟨postAll names users,
               .returned ⟨200, .list [⟨users.length + i + 1, names.get ⟨i, hi⟩⟩]⟩⟩ := by
  have hids := postAll_ids names users h
  have hnodup : ((postAll names users).map User.id).Nodup := by
    rw [hids]; exact List.nodup_range' 1 _
  refine ⟨hids, hnodup, ?_⟩
  intro i hi
  have hf := filter_id_of_nodup (postAll names users) ⟨users.length + i + 1, names[i]⟩
    hnodup (created_mem_postAll names users i hi)
  simp only [Next01.UserId.GET]
  simp only [] at hf
  rw [hf]
  simp [NextResponse.json, Next01.UserId.routeModule]

/-- Witness of C11: two `POST` requests on the Directory with the one id 1. -/
theorem C11_posts_keep_ids_consecutive_witness :
    ([⟨1, "A"⟩] : Directory).map User.id = List.range' 1 ([⟨1, "A"⟩] : Directory).length
      ∧ (postAll ["B", "C"] [⟨1, "A"⟩]).map User.id
          = List.range' 1 (([⟨1, "A"⟩] : Directory).length + ["B", "C"].length)
      ∧ ((postAll ["B", "C"] [⟨1, "A"⟩]).map User.id).Nodup
      ∧ ∀ (i : Nat) (hi : i < ["B", "C"].length),
          Next01.UserId.GET (([⟨1, "A"⟩] : Directory).length + i + 1)
              (postAll ["B", "C"] [⟨1, "A"⟩])
            = ⟨postAll ["B", "C"] [⟨1, "A"⟩],
               .returned ⟨200, .list [⟨([⟨1, "A"⟩] : Directory).length + i + 1,
                 ["B", "C"].get ⟨i, hi⟩⟩]⟩⟩ :=
  ⟨by decide, C11_posts_keep_ids_consecutive [⟨1, "A"⟩] ["B", "C"] (by decide)⟩

end UserDirectory
